import Mathlib

/-!
Verification development for the playback orchestration core of
utube_play.py: cache path resolution, media download guard, playlist
persistence, playlist management, the mpv playback session state machine,
and the pause/resume control channel.  Python functions are embedded as
pure Lean functions; filesystem and subprocess outcomes are supplied as
explicit oracle parameters, and externally visible actions (spawning mpv,
invoking the downloader, writing the autosave file, sending control
commands) are recorded as events.
-/

namespace UTube

/-! ## Python string primitives, modelled over the character list -/

/-- The ASCII whitespace characters stripped by the Python str.strip method
(a space, tab, newline, carriage return, vertical tab, form feed). -/
def pySpace (c : Char) : Bool :=
  c = ' ' || c = '\t' || c = '\n' || c = '\r' || c = '\x0b' || c = '\x0c'

/-- Python str.strip with no argument: remove leading and trailing
whitespace. -/
def stripL (l : List Char) : List Char :=
  ((l.dropWhile pySpace).reverse.dropWhile pySpace).reverse

/-- Python str.startswith, over character lists: first argument is the
pattern, second the string. -/
def startsWithL : List Char → List Char → Bool
  | [], _ => true
  | _ :: _, [] => false
  | p :: ps, c :: cs => p == c && startsWithL ps cs

/-- Split a character list at newline characters.  This models iterating
over the lines of a text file; it is exact for content that contains no
carriage return (the only content the theorems below apply it to). -/
def splitNL : List Char → List (List Char)
  | [] => [[]]
  | c :: rest =>
    if c = '\n' then [] :: splitNL rest
    else
      match splitNL rest with
      | [] => [[c]]
      | l :: ls => (c :: l) :: ls

/-- os.path.join for the posix convention, two arguments.  The separator
tests are written over the character lists so that every application to
literals reduces inside the kernel. -/
def pyJoin (a b : String) : String :=
  if startsWithL ('/' :: []) b.data then b
  else if a = "" then b
  else if startsWithL ('/' :: []) a.data.reverse then a ++ b
  else a ++ "/" ++ b

/-! ## Cache path resolver (sanitize_filename, get_cached_media_path) -/

/-- The character class of the regex in sanitize_filename: backslash,
slash, colon, asterisk, question mark, double quote (code 34), less than,
greater than, vertical bar. -/
def badChar (c : Char) : Bool :=
  c = '\\' || c = '/' || c = ':' || c = '*' || c = '?' || c = Char.ofNat 34 ||
    c = '<' || c = '>' || c = '|'

/-- re.sub replacing every character of the class above with an
underscore. -/
def sanitize_filename (s : String) : String :=
  String.mk (s.data.map (fun c => if badChar c then '_' else c))

/-- The file name built by get_cached_media_path: the f-string
vid _ (sanitize_filename(title)[:80] if title else vid) . ext, with
extension m4a when audio only and webm otherwise.  A Python optional
string argument is an Option here, and the empty string is falsy. -/
def cachedFileName (vid : String) (aud : Bool) (title : Option String) : String :=
  let ext := if aud then "m4a" else "webm"
  let frag :=
    match title with
    | some t => if t = "" then vid else String.mk ((sanitize_filename t).data.take 80)
    | none => vid
  vid ++ "_" ++ frag ++ "." ++ ext

/-- CACHE_DIR: os.path.join of the home directory (os.path.expanduser of
the tilde, passed in as a parameter) and the youtube_cache directory. -/
def cacheDir (home : String) : String :=
  pyJoin home "youtube_cache"

/-- get_cached_media_path: os.path.join of CACHE_DIR and the cached file
name. -/
def get_cached_media_path (home vid : String) (aud : Bool)
    (title : Option String) : String :=
  pyJoin (cacheDir home) (cachedFileName vid aud title)

/-! ## Playlist data model -/

/-- A playlist entry: the dict with link and title keys. -/
structure Item where
  link : String
  title : String
deriving DecidableEq

/-- Externally visible actions of the embedded operations. -/
inductive Event where
  | runDownloader (args : List String)
  | startDownload (link : String)
  | terminateMpv
  | spawnMpv (args : List String)
  | callPlay
  | saveAutosave (pl : List Item)
  | connectAttempt
  | sleep100
  | sendCmd (pauseTo : Bool)
deriving DecidableEq

/-- Oracle for one download_media_if_needed call: whether the resolved
path already exists, and the outcome of the yt-dlp subprocess (none models
a spawn exception, some rc a completed run with return code rc). -/
structure DLEnv where
  fsExists : String → Bool
  runResult : Option Int

/-- The yt-dlp argument list built by download_media_if_needed. -/
def ytdlpArgs (p link : String) (aud : Bool) (maxRes : Nat) : List String :=
  if aud then
    ["yt-dlp", "-f", "bestaudio[ext=m4a]/bestaudio/best", "-o", p, link]
  else
    ["yt-dlp", "-f",
      "bestvideo[ext=webm][height<=" ++ toString maxRes ++
        "]+bestaudio[ext=webm]/bestvideo[height<=" ++ toString maxRes ++
        "]+bestaudio/best[height<=" ++ toString maxRes ++ "]",
      "-o", p, link]

/-- download_media_if_needed: return the cached path untouched when the
file exists; otherwise run yt-dlp and return none (the Python None) on a
nonzero exit code or a spawn exception, and the path on success. -/
def download_media_if_needed (env : DLEnv) (home vid link : String)
    (aud : Bool) (title : Option String) (maxRes : Nat) :
    Option String × List Event :=
  let p := get_cached_media_path home vid aud title
  if env.fsExists p then (some p, [])
  else
    match env.runResult with
    | none => (none, [Event.runDownloader (ytdlpArgs p link aud maxRes)])
    | some rc =>
      if rc ≠ 0 then (none, [Event.runDownloader (ytdlpArgs p link aud maxRes)])
      else (some p, [Event.runDownloader (ytdlpArgs p link aud maxRes)])

/-! ## Playlist persistence (save_playlist_to_file, load_playlist_from_file) -/

/-- The replacement applied to titles by save_playlist_to_file: newline
(code 10) and carriage return (code 13) each become a space. -/
def collapseChar (c : Char) : Char :=
  if c = '\n' then ' ' else if c = '\r' then ' ' else c

/-- save_playlist_to_file: for each item write a comment line holding the
collapsed title and then the link line.  The result is the full file
content. -/
def save_playlist_to_file (pl : List Item) : String :=
  String.mk
    ((pl.map (fun i =>
      '#' :: ' ' :: (i.title.data.map collapseChar) ++
        '\n' :: (i.link.data ++ ['\n']))).flatten)

/-- One step of the load loop: a comment line stores a pending title, a
line starting with http appends an item whose title is the pending title
when that is truthy (a nonempty string) and the link itself otherwise,
and any other line is ignored. -/
def loadStep (acc : List Item × Option (List Char)) (l : List Char) :
    List Item × Option (List Char) :=
  if startsWithL ('#' :: ' ' :: []) l then (acc.1, some (l.drop 2))
  else if startsWithL ('h' :: 't' :: 't' :: 'p' :: []) l then
    (acc.1 ++
      [⟨String.mk l,
        String.mk (match acc.2 with
          | some t => if t = [] then l else t
          | none => l)⟩], none)
  else acc

/-- load_playlist_from_file applied to file content: strip every line,
keep the nonempty ones, and run the loop above. -/
def load_playlist_from_file (content : String) : List Item :=
  ((((splitNL content.data).map stripL).filter (fun l => l ≠ [])).foldl
    loadStep ([], none)).1

/-! ## Application state (the YouTubeApp fields the core touches) -/

/-- The mutable fields of YouTubeApp that the playback orchestration
reads or writes.  mpv_alive models the Python condition that mpv_process
is truthy and its poll method returns None; poll_pending models that the
stored after callback id is not None; stopped_by_user models the one shot
flag read through getattr with default False. -/
structure AppState where
  playlist : List Item
  playlist_index : Nat
  mpv_alive : Bool
  stopped_by_user : Bool
  is_paused : Bool
  pause_button : String
  status : String
  poll_pending : Bool
deriving DecidableEq

/-- Environment of a play_from_playlist call: the home directory, the
filesystem existence oracle, the two Tk option variables, the process id
used in the ipc socket path, and whether the mpv Popen call succeeds. -/
structure Env where
  home : String
  fsExists : String → Bool
  audio_only : Bool
  resolution : String
  pid : Nat
  spawnOk : Bool

/-- The word characters of the regex character class of backslash w plus
the hyphen, restricted to ASCII as a model of the Python unicode class. -/
def vidChar (c : Char) : Bool :=
  c.isAlphanum || c = '_' || c = '-'

/-- re.search for the pattern v= followed by one or more word characters:
scan left to right, and at the first position where v= is followed by at
least one word character return the maximal run of word characters. -/
def findVid : List Char → Option (List Char)
  | [] => none
  | c :: rest =>
    if c = 'v' then
      match rest with
      | '=' :: r2 =>
        let m := r2.takeWhile vidChar
        if m = [] then findVid rest else some m
      | _ => findVid rest
    else findVid rest

/-- The video id extraction in play_from_playlist: the first regex group
when the pattern matches, the whole link otherwise. -/
def extract_video_id (link : String) : String :=
  match findVid link.data with
  | some m => String.mk m
  | none => link

/-- The resolution dropdown mapping with its default of 480. -/
def resLookup (r : String) : Nat :=
  if r = "480p" then 480 else if r = "720p" then 720
  else if r = "1080p" then 1080 else 480

/-- The ytdl resolution string mapping with its default. -/
def ytdlRes (n : Nat) : String :=
  if n = 480 then "480" else if n = 720 then "720"
  else if n = 1080 then "1080" else "480"

/-- The entry placed in the mpv argument list for one playlist item: the
cached media path when it exists on disk, the remote link otherwise. -/
def mediaEntry (env : Env) (it : Item) : String :=
  let p := get_cached_media_path env.home (extract_video_id it.link)
    env.audio_only (some it.title)
  if env.fsExists p then p else it.link

/-- The fixed mpv arguments built before the playlist is appended: the
binary, the ipc server flag with the per process socket path, the two
cache flags, and the audio or video format flags. -/
def mpvStaticArgs (env : Env) : List String :=
  let maxRes := resLookup env.resolution
  ["mpv", "--input-ipc-server=/tmp/mpv-pipe-" ++ toString env.pid,
    "--cache=yes", "--cache-secs=1"] ++
  (if env.audio_only then
    ["--no-video", "--force-window=no",
      "--ytdl-format=bestaudio[ext=m4a]/bestaudio/best"]
  else
    ["--ytdl-format=bestvideo[height<=" ++ ytdlRes maxRes ++
      "]+bestaudio/best[height<=" ++ ytdlRes maxRes ++ "]"])

/-- play_from_playlist.  Resets the pause state and button first; returns
on an empty playlist; clamps an out of range index to 0 and returns; else
builds the per item entries, spawns a background download for each item
whose cached path is missing, terminates a live previous mpv, and passes
the rotated entry list (from the current index to the end, then the
earlier entries) to mpv.  On a spawn exception the status is left and no
poll is scheduled; on success the status becomes Playing.  The after call
made here does not store a callback id, so poll_pending is unchanged. -/
def play_from_playlist (env : Env) (s : AppState) : AppState × List Event :=
  let s0 := { s with is_paused := false, pause_button := "Pause" }
  if s0.playlist = [] then (s0, [])
  else if s0.playlist.length ≤ s0.playlist_index then
    ({ s0 with playlist_index := 0 }, [])
  else
    let entries := s0.playlist.map (mediaEntry env)
    let dl := (s0.playlist.filter (fun it =>
      ! env.fsExists (get_cached_media_path env.home
        (extract_video_id it.link) env.audio_only (some it.title)))).map
      (fun it => Event.startDownload it.link)
    let kill := if s0.mpv_alive then [Event.terminateMpv] else []
    let args := mpvStaticArgs env ++
      (entries.drop s0.playlist_index ++ entries.take s0.playlist_index)
    if env.spawnOk then
      ({ s0 with mpv_alive := true, status := "Playing" },
        dl ++ kill ++ [Event.spawnMpv args])
    else
      ({ s0 with mpv_alive := false }, dl ++ kill ++ [Event.spawnMpv args])

/-- poll_mpv.  A live process keeps the Playing status and reschedules the
poll.  Otherwise the status becomes Idle and, unless the stopped by user
flag is set, the index is incremented and play_from_playlist is called
when the new index is still in range, while an overflow wraps the index to
0 without playing; the flag is cleared in every exited branch. -/
def poll_mpv (env : Env) (s : AppState) : AppState × List Event :=
  if s.mpv_alive then
    ({ s with status := "Playing", poll_pending := true }, [])
  else
    let s1 := { s with status := "Idle" }
    if s1.stopped_by_user then
      ({ s1 with stopped_by_user := false }, [])
    else
      let s2 := { s1 with playlist_index := s1.playlist_index + 1 }
      if s2.playlist_index < s2.playlist.length then
        let r := play_from_playlist env s2
        ({ r.1 with stopped_by_user := false }, Event.callPlay :: r.2)
      else
        ({ s2 with playlist_index := 0, stopped_by_user := false }, [])

/-- stop.  Terminates a live mpv process and waits for it, sets the status
to Idle, sets the stopped by user flag, and cancels a pending poll
callback. -/
def stop (s : AppState) : AppState × List Event :=
  let r := if s.mpv_alive then
      ({ s with mpv_alive := false }, [Event.terminateMpv])
    else (s, ([] : List Event))
  ({ r.1 with
      status := "Idle",
      stopped_by_user := true,
      poll_pending := false }, r.2)

/-- A search result row as used by add_to_playlist_from_search. -/
structure SearchResult where
  videoId : String
  title : String
deriving DecidableEq

/-- add_to_playlist_from_search for a resolved search row.  When an item
with the same watch link exists the index moves to its first position;
otherwise the item is appended, the index moves to the new last position
and the playlist is autosaved.  Either way play_from_playlist runs. -/
def add_to_playlist_from_search (env : Env) (video : SearchResult)
    (s : AppState) : AppState × List Event :=
  let link := "https://www.youtube.com/watch?v=" ++ video.videoId
  if s.playlist.any (fun it => it.link == link) then
    let s1 := { s with
      playlist_index := s.playlist.findIdx (fun it => it.link == link) }
    let r := play_from_playlist env s1
    (r.1, Event.callPlay :: r.2)
  else
    let pl := s.playlist ++ [⟨link, video.title⟩]
    let s1 := { s with playlist := pl, playlist_index := pl.length - 1 }
    let r := play_from_playlist env s1
    (r.1, Event.saveAutosave pl :: Event.callPlay :: r.2)

/-! ## Pause and resume control channel (play_pause) -/

/-- Oracle for one play_pause call: the outcome of each numbered connect
attempt on the ipc socket, and whether sending the command succeeds once
connected. -/
structure PPEnv where
  connOk : Nat → Bool
  sendOk : Bool

/-- The connect retry loop: up to fuel attempts starting at attempt i;
a failed attempt is followed by a 100 millisecond sleep before the next
one.  Returns whether a connection was obtained, with the recorded
attempts. -/
def connectFrom (env : PPEnv) : Nat → Nat → Bool × List Event
  | _, 0 => (false, [])
  | i, fuel + 1 =>
    if env.connOk i then (true, [Event.connectAttempt])
    else
      let r := connectFrom env (i + 1) fuel
      (r.1, Event.connectAttempt :: Event.sleep100 :: r.2)

/-- play_pause.  Nothing happens without a live mpv process.  Otherwise
the desired pause state is the negation of the tracked one; the socket is
connected with up to 10 attempts and a 100 millisecond sleep after each
failure, and exhausting them returns with no state change.  After a
successful send of the set_property pause command the tracked state and
the button label are updated; an exception while sending is swallowed and
leaves the state unchanged. -/
def play_pause (env : PPEnv) (s : AppState) : AppState × List Event :=
  if s.mpv_alive then
    let pauseState := ! s.is_paused
    let c := connectFrom env 0 10
    if c.1 then
      if env.sendOk then
        ({ s with
            is_paused := pauseState,
            pause_button := if pauseState then "Resume" else "Pause" },
          c.2 ++ [Event.sendCmd pauseState])
      else (s, c.2)
    else (s, c.2)
  else (s, [])

/-! ## Event observations and concrete fixtures -/

/-- Whether an event is a connect attempt on the control socket. -/
def isConnectAttempt : Event → Bool
  | Event.connectAttempt => true
  | _ => false

/-- The number of connect attempts recorded in an event list. -/
def countConn (evs : List Event) : Nat :=
  evs.countP isConnectAttempt

/-- Whether an event is an autosave write. -/
def isSaveEvent : Event → Bool
  | Event.saveAutosave _ => true
  | _ => false

/-- Whether an event list contains an autosave write. -/
def hasSave (evs : List Event) : Bool :=
  evs.any isSaveEvent

/-- The argument list of a spawn event, none for other events. -/
def spawnArgsOf : Event → Option (List String)
  | Event.spawnMpv a => some a
  | _ => none

/-- The argument list of the first mpv spawn in an event list. -/
def spawnedArgs (evs : List Event) : Option (List String) :=
  evs.findSome? spawnArgsOf

/-- The titles and links for which the persistence round trip is exact:
the title holds no newline or carriage return, is nonempty, and carries no
trailing whitespace; the link starts with http and holds no newline,
carriage return, or trailing whitespace.  Leading whitespace in a title is
harmless: the serialized line keeps its comment prefix, so the strip never
reaches the title. -/
def goodItem (i : Item) : Prop :=
  (∀ c ∈ i.title.data, c ≠ '\n' ∧ c ≠ '\r') ∧
  i.title.data ≠ [] ∧
  i.title.data.reverse.dropWhile pySpace = i.title.data.reverse ∧
  startsWithL ('h' :: 't' :: 't' :: 'p' :: []) i.link.data = true ∧
  (∀ c ∈ i.link.data, c ≠ '\n' ∧ c ≠ '\r') ∧
  i.link.data.reverse.dropWhile pySpace = i.link.data.reverse

instance goodItemDecidable (i : Item) : Decidable (goodItem i) := by
  unfold goodItem
  infer_instance

/-- Fixture items with distinct watch links. -/
def itA : Item := ⟨"https://www.youtube.com/watch?v=aaa1", "A"⟩

def itB : Item := ⟨"https://www.youtube.com/watch?v=bbb2", "B"⟩

def itC : Item := ⟨"https://www.youtube.com/watch?v=ccc3", "C"⟩

/-- Fixture environment: nothing cached, audio only, spawn succeeds. -/
def envNoCache : Env :=
  ⟨"/home/u", fun _ => false, true, "480p", 7, true⟩

/-- A three item playlist at a chosen index, player exited, no flags. -/
def st3 (idx : Nat) : AppState :=
  ⟨[itA, itB, itC], idx, false, false, false, "Pause", "Idle", false⟩

/-- A three item playlist at index 0 with a live player and a pending
poll. -/
def stLive3 : AppState :=
  ⟨[itA, itB, itC], 0, true, false, false, "Pause", "Playing", true⟩

/-- A one item playlist with a live player. -/
def stLive : AppState :=
  ⟨[itA], 0, true, false, false, "Pause", "Playing", true⟩

/-- A one item playlist, player exited. -/
def stOne : AppState :=
  ⟨[itA], 0, false, false, false, "Pause", "Idle", false⟩

/-- A two item playlist at index 1, player exited. -/
def st2 : AppState :=
  ⟨[itA, itB], 1, false, false, false, "Pause", "Idle", false⟩

/-- A pause environment whose every connect attempt fails. -/
def ppAllFail : PPEnv := ⟨fun _ => false, true⟩

/-! ## Theorems -/

/-- Every character produced by sanitize_filename is outside the
forbidden class. -/
theorem sanitize_filename_safe (t : String) :
    ∀ c ∈ (sanitize_filename t).data, badChar c = false := by
  intro c hc
  simp only [sanitize_filename, List.mem_map] at hc
  obtain ⟨x, _, rfl⟩ := hc
  cases hb : badChar x with
  | true => rw [if_pos rfl]; decide
  | false => rw [if_neg (by decide)]; exact hb

/-- Claim C7 counterexample: with no title the resolver does not use the
bare id as the stem; for id abc in audio mode it produces abc_abc.m4a,
not abc.m4a, because the falsy-title fallback replaces only the title
fragment of the stem, which still begins with the id and an underscore. -/
theorem cachedFileName_no_title_counterexample :
    cachedFileName "abc" true none = "abc_abc.m4a" ∧
    cachedFileName "abc" true none ≠ "abc.m4a" := by
  constructor
  · rfl
  · decide

/-- Claim C7 (amended): when no title is supplied the cached file name is
the id, an underscore, the id again, a dot and the extension, the
extension being m4a in audio mode and webm otherwise. -/
theorem cachedFileName_no_title (vid : String) (aud : Bool) :
    cachedFileName vid aud none =
      vid ++ "_" ++ vid ++ "." ++ (if aud then "m4a" else "webm") := rfl

/-- Claim C6 counterexample: the resolver output is a full path and
contains the slash, one of the characters the claim says never occurs in
the output. -/
theorem resolve_contains_separator_counterexample :
    '/' ∈ (get_cached_media_path "/root" "a" true (some "b")).data ∧
    badChar '/' = true := by
  constructor
  · decide
  · decide

/-- Claim C6 (amended): the resolver is deterministic; the file name
component it builds contains none of the forbidden characters whenever
the id contains none (the directory prefix of the full path does contain
the path separator); the embedded title fragment is the sanitized title
truncated to 80 characters. -/
theorem resolve_deterministic_and_safe (home vid title : String) (aud : Bool)
    (hvid : ∀ c ∈ vid.data, badChar c = false) :
    get_cached_media_path home vid aud (some title) =
      get_cached_media_path home vid aud (some title) ∧
    (∀ c ∈ (cachedFileName vid aud (some title)).data, badChar c = false) ∧
    ((sanitize_filename title).data.take 80).length ≤ 80 ∧
    (title ≠ "" → cachedFileName vid aud (some title) =
      vid ++ "_" ++ String.mk ((sanitize_filename title).data.take 80) ++
        "." ++ (if aud then "m4a" else "webm")) := by
  have hshape : cachedFileName vid aud (some title) =
      vid ++ "_" ++
        (if title = "" then vid
          else String.mk ((sanitize_filename title).data.take 80)) ++
        "." ++ (if aud then "m4a" else "webm") := rfl
  refine ⟨rfl, ?_, ?_, ?_⟩
  · intro c hc
    rw [hshape] at hc
    simp only [String.data_append, List.mem_append] at hc
    rcases hc with (((h1 | h2) | h3) | h4) | h5
    · exact hvid c h1
    · rw [List.mem_singleton] at h2
      subst h2; decide
    · by_cases ht : title = ""
      · rw [if_pos ht] at h3; exact hvid c h3
      · rw [if_neg ht] at h3
        exact sanitize_filename_safe title c (List.mem_of_mem_take h3)
    · rw [List.mem_singleton] at h4
      subst h4; decide
    · cases aud with
      | true =>
        rw [if_pos rfl, show "m4a".data = ['m', '4', 'a'] from rfl] at h5
        simp only [List.mem_cons, List.not_mem_nil, or_false] at h5
        rcases h5 with rfl | rfl | rfl <;> decide
      | false =>
        rw [if_neg (by decide),
          show "webm".data = ['w', 'e', 'b', 'm'] from rfl] at h5
        simp only [List.mem_cons, List.not_mem_nil, or_false] at h5
        rcases h5 with rfl | rfl | rfl | rfl <;> decide
  · rw [List.length_take]
    exact Nat.min_le_left 80 (sanitize_filename title).data.length
  · intro ht
    rw [hshape, if_neg ht]

/-- Witness for the amended resolver claim at a concrete id and title. -/
theorem resolve_deterministic_and_safe_witness :
    (∀ c ∈ (cachedFileName "id7" true (some "a/b")).data, badChar c = false) ∧
    ((sanitize_filename "a/b").data.take 80).length ≤ 80 := by
  have h := resolve_deterministic_and_safe "/home/u" "id7" "a/b" true (by decide)
  exact ⟨h.2.1, h.2.2.1⟩

/-- Claim C9: when the resolved path exists the fetcher returns it with
no downloader invocation; otherwise the downloader runs once, the result
is none exactly on a spawn failure or a nonzero exit code, and a zero exit
code returns the resolved path. -/
theorem download_media_spec (env : DLEnv) (home vid link : String)
    (aud : Bool) (title : Option String) (maxRes : Nat) :
    (env.fsExists (get_cached_media_path home vid aud title) = true →
      download_media_if_needed env home vid link aud title maxRes =
        (some (get_cached_media_path home vid aud title), [])) ∧
    (env.fsExists (get_cached_media_path home vid aud title) = false →
      (download_media_if_needed env home vid link aud title maxRes).2 =
        [Event.runDownloader
          (ytdlpArgs (get_cached_media_path home vid aud title) link aud maxRes)] ∧
      ((download_media_if_needed env home vid link aud title maxRes).1 = none ↔
        env.runResult = none ∨ ∃ rc, env.runResult = some rc ∧ rc ≠ 0) ∧
      (env.runResult = some 0 →
        (download_media_if_needed env home vid link aud title maxRes).1 =
          some (get_cached_media_path home vid aud title))) := by
  constructor
  · intro h
    simp [download_media_if_needed, h]
  · intro h
    cases hr : env.runResult with
    | none => simp [download_media_if_needed, h, hr]
    | some rc =>
      by_cases hrc : rc = 0
      · subst hrc
        simp [download_media_if_needed, h, hr]
      · simp [download_media_if_needed, h, hr, hrc]

/-- Witness for the fetcher claim: with a missing file and an exit code of
1 the result is none, and with the file present the downloader does not
run. -/
theorem download_media_spec_witness :
    (download_media_if_needed ⟨fun _ => false, some 1⟩ "/h" "v1" "http://x"
      true none 480).1 = none ∧
    download_media_if_needed ⟨fun _ => true, some 1⟩ "/h" "v1" "http://x"
      true none 480 =
      (some (get_cached_media_path "/h" "v1" true none), []) := by
  constructor
  · exact ((download_media_spec ⟨fun _ => false, some 1⟩ "/h" "v1" "http://x"
      true none 480).2 rfl).2.1.mpr (Or.inr ⟨1, rfl, by decide⟩)
  · exact (download_media_spec ⟨fun _ => true, some 1⟩ "/h" "v1" "http://x"
      true none 480).1 rfl

/-- Claim C10: without a live player process the pause toggle changes
nothing and performs no action. -/
theorem play_pause_noop_when_dead (env : PPEnv) (s : AppState)
    (h : s.mpv_alive = false) :
    play_pause env s = (s, []) := by
  simp [play_pause, h]

/-- Witness for the dead player no-op claim at a concrete state. -/
theorem play_pause_noop_when_dead_witness :
    play_pause ppAllFail stOne = (stOne, []) :=
  play_pause_noop_when_dead ppAllFail stOne rfl

/-- The retry loop makes at most fuel connect attempts. -/
theorem connectFrom_count (env : PPEnv) :
    ∀ (fuel i : Nat), countConn (connectFrom env i fuel).2 ≤ fuel := by
  intro fuel
  induction fuel with
  | zero => intro i; simp [connectFrom, countConn]
  | succ n ih =>
    intro i
    by_cases h : env.connOk i
    · simp [connectFrom, h, countConn, List.countP_cons, isConnectAttempt]
    · have hih := ih (i + 1)
      simp only [countConn] at hih
      simp [connectFrom, h, countConn, List.countP_cons, isConnectAttempt]
      omega

/-- When every attempt in range fails, the retry loop fails and records
exactly fuel attempts, each followed by one sleep. -/
theorem connectFrom_all_fail (env : PPEnv) :
    ∀ (fuel i : Nat), (∀ j, j < fuel → env.connOk (i + j) = false) →
      connectFrom env i fuel =
        (false, (List.replicate fuel
          [Event.connectAttempt, Event.sleep100]).flatten) := by
  intro fuel
  induction fuel with
  | zero => intro i _; rfl
  | succ n ih =>
    intro i h
    have h0 : env.connOk i = false := by simpa using h 0 (Nat.succ_pos n)
    have hrec := ih (i + 1) (fun j hj => by
      have := h (j + 1) (Nat.succ_lt_succ hj)
      simpa [Nat.add_assoc, Nat.add_comm 1 j] using this)
    simp [connectFrom, h0, hrec, List.replicate_succ]

/-- Claim C8: with a live player the pause toggle connects with at most 10
attempts; when every attempt fails the call is a no-op that leaves the
whole state unchanged and recorded exactly 10 attempts with a 100
millisecond sleep after each; and the tracked pause state changes only
when the set_property pause command was successfully sent. -/
theorem play_pause_retry (env : PPEnv) (s : AppState)
    (halive : s.mpv_alive = true) :
    countConn (play_pause env s).2 ≤ 10 ∧
    ((∀ i, i < 10 → env.connOk i = false) →
      play_pause env s =
        (s, (List.replicate 10
          [Event.connectAttempt, Event.sleep100]).flatten)) ∧
    ((play_pause env s).1.is_paused ≠ s.is_paused →
      Event.sendCmd (! s.is_paused) ∈ (play_pause env s).2 ∧
      env.sendOk = true) := by
  refine ⟨?_, ?_, ?_⟩
  · have hb := connectFrom_count env 10 0
    by_cases hc : (connectFrom env 0 10).1
    · by_cases hs : env.sendOk
      · simp only [play_pause, halive, if_pos, hc, hs, countConn,
          List.countP_append] at *
        simpa [countConn, isConnectAttempt] using hb
      · simp only [play_pause, halive, if_pos, hc, hs] at *
        simpa [countConn] using hb
    · simp only [play_pause, halive, if_pos, Bool.not_eq_true] at *
      simp only [hc] at *
      simpa [countConn, Bool.false_eq_true] using hb
  · intro hall
    have hfail := connectFrom_all_fail env 10 0 (fun j hj => by
      simpa using hall j hj)
    simp [play_pause, halive, hfail]
  · intro hch
    by_cases hc : (connectFrom env 0 10).1
    · by_cases hs : env.sendOk
      · constructor
        · simp [play_pause, halive, hc, hs]
        · exact hs
      · exfalso
        apply hch
        simp [play_pause, halive, hc, hs]
    · exfalso
      apply hch
      simp only [play_pause, halive, if_pos] at *
      simp [hc] at *

/-- Witness for the pause retry claim: a concrete live state with every
connect attempt failing is left unchanged after exactly 10 recorded
attempts. -/
theorem play_pause_retry_witness :
    play_pause ppAllFail stLive =
      (stLive, (List.replicate 10
        [Event.connectAttempt, Event.sleep100]).flatten) ∧
    countConn (play_pause ppAllFail stLive).2 ≤ 10 := by
  have h := play_pause_retry ppAllFail stLive rfl
  exact ⟨h.2.1 (fun i _ => rfl), h.1⟩

/-- A play call with a valid current index changes neither the playlist
nor the index. -/
theorem play_keeps (env : Env) (s : AppState)
    (h : s.playlist_index < s.playlist.length) :
    (play_from_playlist env s).1.playlist = s.playlist ∧
    (play_from_playlist env s).1.playlist_index = s.playlist_index := by
  have hne : ¬ s.playlist = [] := by
    intro he
    rw [he] at h
    simp at h
  have hle : ¬ s.playlist.length ≤ s.playlist_index := Nat.not_le.mpr h
  cases hsp : env.spawnOk <;>
    simp [play_from_playlist, hne, hle, hsp]

/-- With a valid current index the events of a play call are the
background downloads for the uncached items, the termination of a live
previous player, and one spawn whose trailing arguments are the entry
list rotated at the current index. -/
theorem play_events_shape (env : Env) (s : AppState)
    (h : s.playlist_index < s.playlist.length) :
    (play_from_playlist env s).2 =
      ((s.playlist.filter (fun it =>
        ! env.fsExists (get_cached_media_path env.home
          (extract_video_id it.link) env.audio_only (some it.title)))).map
        (fun it => Event.startDownload it.link)) ++
      (if s.mpv_alive then [Event.terminateMpv] else []) ++
      [Event.spawnMpv (mpvStaticArgs env ++
        ((s.playlist.map (mediaEntry env)).drop s.playlist_index ++
         (s.playlist.map (mediaEntry env)).take s.playlist_index))] := by
  have hne : ¬ s.playlist = [] := by
    intro he
    rw [he] at h
    simp at h
  have hle : ¬ s.playlist.length ≤ s.playlist_index := Nat.not_le.mpr h
  cases hsp : env.spawnOk <;>
    simp [play_from_playlist, hne, hle, hsp, List.append_assoc]

/-- findSome? skips a prefix on which the selector returns none. -/
theorem findSome?_none_append {α β : Type} (f : α → Option β)
    (l1 l2 : List α) (h : ∀ e ∈ l1, f e = none) :
    List.findSome? f (l1 ++ l2) = List.findSome? f l2 := by
  induction l1 with
  | nil => rfl
  | cons a t ih =>
    have ha : f a = none := h a (List.mem_cons_self a t)
    simp only [List.cons_append, List.findSome?, ha]
    exact ih (fun e he => h e (List.mem_cons_of_mem a he))

/-- A play call never writes the autosave file. -/
theorem play_no_save (env : Env) (s : AppState) :
    hasSave (play_from_playlist env s).2 = false := by
  by_cases h : s.playlist_index < s.playlist.length
  · rw [play_events_shape env s h]
    simp only [hasSave, List.any_append, Bool.or_eq_false_iff]
    refine ⟨⟨?_, ?_⟩, ?_⟩
    · rw [List.any_eq_false]
      intro e he
      obtain ⟨it, _, rfl⟩ := List.mem_map.mp he
      simp [isSaveEvent]
    · cases s.mpv_alive <;> simp [isSaveEvent]
    · simp [isSaveEvent]
  · by_cases hne : s.playlist = [] <;>
      simp [play_from_playlist, hne, Nat.not_lt.mp h, hasSave]

/-- Claim C4: with a nonempty playlist and a valid start index, the mpv
spawn receives after the fixed flags exactly the rotation of the per item
entries: the entries from the current index to the end, then the earlier
entries, each item resolved in playlist order. -/
theorem play_rotation (env : Env) (s : AppState)
    (h : s.playlist_index < s.playlist.length) :
    spawnedArgs (play_from_playlist env s).2 =
      some (mpvStaticArgs env ++
        ((s.playlist.drop s.playlist_index ++
          s.playlist.take s.playlist_index).map (mediaEntry env))) := by
  rw [spawnedArgs, play_events_shape env s h, List.append_assoc]
  rw [findSome?_none_append]
  · rw [findSome?_none_append]
    · simp [List.findSome?, spawnArgsOf, List.map_append, List.map_drop,
        List.map_take]
    · intro e he
      cases hm : s.mpv_alive <;> rw [hm] at he <;> simp at he
      rw [he]; rfl
  · intro e he
    obtain ⟨it, _, rfl⟩ := List.mem_map.mp he
    rfl

/-- Witness for the rotation claim: a two item playlist started at index 1
passes the second entry first and the first entry last. -/
theorem play_rotation_witness :
    spawnedArgs (play_from_playlist envNoCache st2).2 =
      some (mpvStaticArgs envNoCache ++ [itB.link, itA.link]) := by
  rw [play_rotation envNoCache st2 (by decide)]
  rfl

/-- Claim C1: when the poll finds the process gone and the stop flag
clear, an index below the last position advances by one and triggers a
play call, while incrementing past the last position wraps the index to 0
with no play call. -/
theorem poll_mpv_auto_advance (env : Env) (s : AppState)
    (hdead : s.mpv_alive = false) (hstop : s.stopped_by_user = false) :
    (s.playlist_index + 1 < s.playlist.length →
      (poll_mpv env s).1.playlist_index = s.playlist_index + 1 ∧
      Event.callPlay ∈ (poll_mpv env s).2) ∧
    (s.playlist_index + 1 = s.playlist.length →
      (poll_mpv env s).1.playlist_index = 0 ∧
      Event.callPlay ∉ (poll_mpv env s).2) := by
  constructor
  · intro hlt
    have hplay := play_keeps env
      { s with
        status := "Idle"
        playlist_index := s.playlist_index + 1
        mpv_alive := false
        stopped_by_user := false }
      (by simpa using hlt)
    constructor
    · simp only [poll_mpv, hdead, hstop, Bool.false_eq_true, if_false,
        if_pos hlt]
      simpa using hplay.2
    · simp [poll_mpv, hdead, hstop, hlt]
  · intro heq
    have hnlt : ¬ (s.playlist_index + 1 < s.playlist.length) := by omega
    constructor
    · simp [poll_mpv, hdead, hstop, hnlt]
    · simp [poll_mpv, hdead, hstop, hnlt]

/-- Witness for the auto advance claim: in a three item playlist a track
end at index 2 wraps to 0 with no play call, and at index 0 advances to 1
with a play call. -/
theorem poll_mpv_auto_advance_witness :
    ((poll_mpv envNoCache (st3 2)).1.playlist_index = 0 ∧
      Event.callPlay ∉ (poll_mpv envNoCache (st3 2)).2) ∧
    ((poll_mpv envNoCache (st3 0)).1.playlist_index = 1 ∧
      Event.callPlay ∈ (poll_mpv envNoCache (st3 0)).2) := by
  refine ⟨(poll_mpv_auto_advance envNoCache (st3 2) rfl rfl).2 (by decide),
    (poll_mpv_auto_advance envNoCache (st3 0) rfl rfl).1 (by decide)⟩

/-- Claim C2: stop sets the one shot flag and cancels the pending poll;
for every state, the next poll tick that finds the process gone keeps the
index, performs no action, and clears the flag; the flag is consumed, so
a further tick runs the advance logic again, shown here for an index with
room to advance. -/
theorem stop_suppresses_auto_advance (env : Env) (s : AppState) :
    (stop s).1.stopped_by_user = true ∧
    (stop s).1.poll_pending = false ∧
    (poll_mpv env (stop s).1).1.playlist_index = s.playlist_index ∧
    (poll_mpv env (stop s).1).2 = [] ∧
    (poll_mpv env (stop s).1).1.stopped_by_user = false ∧
    (s.playlist_index + 1 < s.playlist.length →
      (poll_mpv env (poll_mpv env (stop s).1).1).1.playlist_index =
        s.playlist_index + 1) := by
  have sstop : (stop s).1 =
      { s with
        mpv_alive := false
        status := "Idle"
        stopped_by_user := true
        poll_pending := false } := by
    cases hm : s.mpv_alive <;> simp [stop, hm]
  have hpoll1 : poll_mpv env (stop s).1 =
      ({ s with
        mpv_alive := false
        status := "Idle"
        stopped_by_user := false
        poll_pending := false }, []) := by
    rw [sstop]; simp [poll_mpv]
  refine ⟨by rw [sstop], by rw [sstop], by rw [hpoll1], by rw [hpoll1],
    by rw [hpoll1], ?_⟩
  intro hidx
  have hplay := play_keeps env
    { s with
      mpv_alive := false
      status := "Idle"
      stopped_by_user := false
      poll_pending := false
      playlist_index := s.playlist_index + 1 } (by simpa using hidx)
  rw [hpoll1]
  simp only [poll_mpv, Bool.false_eq_true, if_false, if_pos hidx]
  simpa using hplay.2

/-- Witness for the stop suppression claim at a concrete live state,
including the once-only conjunct at its concrete index. -/
theorem stop_suppresses_auto_advance_witness :
    (stop stLive3).1.stopped_by_user = true ∧
    (poll_mpv envNoCache (stop stLive3).1).1.playlist_index = 0 ∧
    (poll_mpv envNoCache (stop stLive3).1).2 = [] ∧
    (poll_mpv envNoCache
      (poll_mpv envNoCache (stop stLive3).1).1).1.playlist_index = 1 := by
  have h := stop_suppresses_auto_advance envNoCache stLive3
  exact ⟨h.1, h.2.2.1, h.2.2.2.1, h.2.2.2.2.2 (by decide)⟩

/-- Claim C3 (amended): adding a candidate whose link already occurs moves
the index to the first occurrence, keeps the playlist, writes no autosave,
and triggers a play call; adding a new link appends the item, moves the
index to the new last position, writes the autosave with the resulting
playlist, and triggers a play call.  The claim as stated fails only in
that the duplicate branch performs no autosave write. -/
theorem add_to_playlist_spec (env : Env) (video : SearchResult)
    (s : AppState) :
    (s.playlist.any (fun it =>
        it.link == "https://www.youtube.com/watch?v=" ++ video.videoId) =
        true →
      (add_to_playlist_from_search env video s).1.playlist = s.playlist ∧
      (add_to_playlist_from_search env video s).1.playlist_index =
        s.playlist.findIdx (fun it =>
          it.link == "https://www.youtube.com/watch?v=" ++ video.videoId) ∧
      hasSave (add_to_playlist_from_search env video s).2 = false ∧
      Event.callPlay ∈ (add_to_playlist_from_search env video s).2) ∧
    (s.playlist.any (fun it =>
        it.link == "https://www.youtube.com/watch?v=" ++ video.videoId) =
        false →
      (add_to_playlist_from_search env video s).1.playlist =
        s.playlist ++
          [⟨"https://www.youtube.com/watch?v=" ++ video.videoId,
            video.title⟩] ∧
      (add_to_playlist_from_search env video s).1.playlist_index =
        s.playlist.length ∧
      Event.saveAutosave (s.playlist ++
        [⟨"https://www.youtube.com/watch?v=" ++ video.videoId,
          video.title⟩]) ∈ (add_to_playlist_from_search env video s).2 ∧
      Event.callPlay ∈ (add_to_playlist_from_search env video s).2) := by
  constructor
  · intro hdup
    have hfi : s.playlist.findIdx (fun it =>
        it.link == "https://www.youtube.com/watch?v=" ++ video.videoId) <
        s.playlist.length :=
      List.findIdx_lt_length_of_exists (by simpa [List.any_eq_true] using hdup)
    have hplay := play_keeps env
      { s with playlist_index := s.playlist.findIdx (fun it =>
          it.link == "https://www.youtube.com/watch?v=" ++ video.videoId) }
      (by simpa using hfi)
    refine ⟨?_, ?_, ?_, ?_⟩
    · simp only [add_to_playlist_from_search, hdup, if_pos]
      simpa using hplay.1
    · simp only [add_to_playlist_from_search, hdup, if_pos]
      simpa using hplay.2
    · simp only [add_to_playlist_from_search, hdup, if_pos, hasSave,
        List.any_cons]
      have := play_no_save env
        { s with playlist_index := s.playlist.findIdx (fun it =>
            it.link == "https://www.youtube.com/watch?v=" ++ video.videoId) }
      simpa [hasSave, isSaveEvent] using this
    · simp [add_to_playlist_from_search, hdup]
  · intro hnew
    have hlen : (s.playlist ++
        [(⟨"https://www.youtube.com/watch?v=" ++ video.videoId,
          video.title⟩ : Item)]).length - 1 <
        (s.playlist ++
        [(⟨"https://www.youtube.com/watch?v=" ++ video.videoId,
          video.title⟩ : Item)]).length := by
      simp
    have hplay := play_keeps env
      { s with
        playlist := s.playlist ++
          [⟨"https://www.youtube.com/watch?v=" ++ video.videoId,
            video.title⟩],
        playlist_index := (s.playlist ++
          [(⟨"https://www.youtube.com/watch?v=" ++ video.videoId,
            video.title⟩ : Item)]).length - 1 } (by simp)
    refine ⟨?_, ?_, ?_, ?_⟩
    · simp only [add_to_playlist_from_search, hnew, Bool.false_eq_true,
        if_false]
      simpa using hplay.1
    · simp only [add_to_playlist_from_search, hnew, Bool.false_eq_true,
        if_false]
      have h2 := hplay.2
      simp only [List.length_append, List.length_cons, List.length_nil] at h2 ⊢
      omega
    · simp [add_to_playlist_from_search, hnew]
    · simp [add_to_playlist_from_search, hnew]

/-- Claim C3 counterexample: adding a candidate whose link already occurs
leaves the playlist length unchanged, keeps the index at the existing
position, and records no autosave write, refuting the either-case autosave
part of the claim. -/
theorem add_duplicate_no_autosave_counterexample :
    (add_to_playlist_from_search envNoCache ⟨"aaa1", "A"⟩ stOne).1.playlist =
      [itA] ∧
    (add_to_playlist_from_search envNoCache ⟨"aaa1", "A"⟩
      stOne).1.playlist_index = 0 ∧
    hasSave (add_to_playlist_from_search envNoCache ⟨"aaa1", "A"⟩
      stOne).2 = false := by
  decide

/-- Witness for the amended add claim: appending a new link to a one item
playlist. -/
theorem add_to_playlist_spec_witness :
    (add_to_playlist_from_search envNoCache ⟨"zzz9", "Z"⟩ stOne).1.playlist =
      [itA, ⟨"https://www.youtube.com/watch?v=zzz9", "Z"⟩] ∧
    (add_to_playlist_from_search envNoCache ⟨"zzz9", "Z"⟩
      stOne).1.playlist_index = 1 ∧
    Event.saveAutosave
      [itA, ⟨"https://www.youtube.com/watch?v=zzz9", "Z"⟩] ∈
      (add_to_playlist_from_search envNoCache ⟨"zzz9", "Z"⟩ stOne).2 ∧
    Event.callPlay ∈
      (add_to_playlist_from_search envNoCache ⟨"zzz9", "Z"⟩ stOne).2 := by
  have h := (add_to_playlist_spec envNoCache ⟨"zzz9", "Z"⟩ stOne).2
    (by decide)
  exact ⟨h.1, h.2.1, h.2.2.1, h.2.2.2⟩

/-- Splitting at newlines peels off a newline free prefix as one line. -/
theorem splitNL_append_newline (a r : List Char)
    (h : ∀ c ∈ a, ¬ c = '\n') :
    splitNL (a ++ '\n' :: r) = a :: splitNL r := by
  induction a with
  | nil => simp [splitNL]
  | cons c t ih =>
    have hc : ¬ c = '\n' := h c (List.mem_cons_self c t)
    have ht := ih (fun x hx => h x (List.mem_cons_of_mem c hx))
    simp only [List.cons_append, splitNL, if_neg hc]
    rw [show t.append ('\n' :: r) = t ++ '\n' :: r from rfl, ht]

/-- dropWhile never lengthens a list. -/
theorem dropWhile_length_le {α : Type} (p : α → Bool) (l : List α) :
    (l.dropWhile p).length ≤ l.length := by
  induction l with
  | nil => simp
  | cons a t ih =>
    rw [List.dropWhile_cons]
    split
    · exact Nat.le_succ_of_le ih
    · exact Nat.le_refl _

/-- A list fixed by dropWhile has a head the predicate rejects. -/
theorem dropWhile_fix_head {α : Type} (p : α → Bool) (c : α) (cs : List α)
    (h : List.dropWhile p (c :: cs) = c :: cs) : p c = false := by
  cases hp : p c with
  | false => rfl
  | true =>
    exfalso
    rw [List.dropWhile_cons, if_pos hp] at h
    have h1 := congrArg List.length h
    have h2 := dropWhile_length_le p cs
    simp only [List.length_cons] at h1
    omega

/-- Stripping leaves a list with no leading and no trailing whitespace
unchanged. -/
theorem stripL_eq_self (l : List Char) (h1 : l.dropWhile pySpace = l)
    (h2 : l.reverse.dropWhile pySpace = l.reverse) : stripL l = l := by
  unfold stripL
  rw [h1, h2, List.reverse_reverse]

/-- Stripping leaves a serialized comment line unchanged when the title is
nonempty with no trailing whitespace. -/
theorem stripL_comment (t : List Char) (ht : ¬ t = [])
    (h2 : t.reverse.dropWhile pySpace = t.reverse) :
    stripL ('#' :: ' ' :: t) = '#' :: ' ' :: t := by
  apply stripL_eq_self
  · rw [List.dropWhile_cons, if_neg (by decide)]
  · obtain ⟨c, cs, hrev⟩ : ∃ c cs, t.reverse = c :: cs := by
      cases hr : t.reverse with
      | nil => exact absurd (List.reverse_eq_nil_iff.mp hr) ht
      | cons c cs => exact ⟨c, cs, rfl⟩
    rw [hrev] at h2
    have hc : pySpace c = false := dropWhile_fix_head pySpace c cs h2
    have hflip : ('#' :: ' ' :: t).reverse = c :: (cs ++ [' ', '#']) := by
      rw [show ('#' :: ' ' :: t).reverse = t.reverse ++ [' ', '#'] by simp,
        hrev]
      simp
    rw [hflip, List.dropWhile_cons, if_neg (by simp [hc])]

/-- A true startsWithL test for http exposes the first four characters. -/
theorem startsWith_http_shape (l : List Char)
    (h : startsWithL ('h' :: 't' :: 't' :: 'p' :: []) l = true) :
    ∃ r, l = 'h' :: 't' :: 't' :: 'p' :: r := by
  cases l with
  | nil => simp [startsWithL] at h
  | cons a1 l1 =>
    cases l1 with
    | nil => simp [startsWithL] at h
    | cons a2 l2 =>
      cases l2 with
      | nil => simp [startsWithL] at h
      | cons a3 l3 =>
        cases l3 with
        | nil => simp [startsWithL] at h
        | cons a4 l4 =>
          simp only [startsWithL, Bool.and_eq_true, beq_iff_eq] at h
          obtain ⟨h1, h2, h3, h4, _⟩ := h
          exact ⟨l4, by rw [← h1, ← h2, ← h3, ← h4]⟩

/-- Stripping leaves a serialized link line unchanged when it starts with
http and has no trailing whitespace. -/
theorem stripL_link (l : List Char)
    (hh : startsWithL ('h' :: 't' :: 't' :: 'p' :: []) l = true)
    (h2 : l.reverse.dropWhile pySpace = l.reverse) : stripL l = l := by
  obtain ⟨r, rfl⟩ := startsWith_http_shape l hh
  apply stripL_eq_self
  · rw [List.dropWhile_cons, if_neg (by decide)]
  · exact h2

/-- The newline collapse is the identity on a title with no newline and
no carriage return. -/
theorem collapse_eq_self (t : List Char)
    (h : ∀ c ∈ t, c ≠ '\n' ∧ c ≠ '\r') : t.map collapseChar = t := by
  induction t with
  | nil => rfl
  | cons c cs ih =>
    have hc := h c (List.mem_cons_self c cs)
    simp only [List.map_cons, collapseChar, if_neg hc.1, if_neg hc.2]
    rw [ih (fun x hx => h x (List.mem_cons_of_mem c hx))]

/-- The newline collapse never outputs a newline. -/
theorem collapse_no_newline (t : List Char) :
    ∀ c ∈ t.map collapseChar, ¬ c = '\n' := by
  intro c hc
  obtain ⟨x, _, rfl⟩ := List.mem_map.mp hc
  by_cases h1 : x = '\n'
  · subst h1; decide
  · by_cases h2 : x = '\r'
    · subst h2; decide
    · simp only [collapseChar, if_neg h1, if_neg h2]
      exact h1

/-- The load loop inverts serialization item by item, for any
accumulator. -/
theorem load_save_aux :
    ∀ (pl : List Item), (∀ i ∈ pl, goodItem i) → ∀ (acc : List Item),
      ((((splitNL ((save_playlist_to_file pl).data)).map stripL).filter
        (fun l => l ≠ [])).foldl loadStep (acc, none)).1 = acc ++ pl := by
  intro pl
  induction pl with
  | nil =>
    intro _ acc
    simp [save_playlist_to_file, splitNL, stripL, loadStep]
  | cons i rest ih =>
    intro h acc
    obtain ⟨hT, hTne, hTtrail, hLhttp, hLnl, hLtrail⟩ :=
      h i (List.mem_cons_self i rest)
    have hcoll : i.title.data.map collapseChar = i.title.data :=
      collapse_eq_self _ hT
    have hdata : (save_playlist_to_file (i :: rest)).data =
        ('#' :: ' ' :: i.title.data) ++ '\n' ::
          (i.link.data ++ '\n' :: (save_playlist_to_file rest).data) := by
      simp [save_playlist_to_file, hcoll, List.append_assoc]
    have hcnl : ∀ c ∈ '#' :: ' ' :: i.title.data, ¬ c = '\n' := by
      intro c hc
      rcases List.mem_cons.mp hc with rfl | hc2
      · decide
      · rcases List.mem_cons.mp hc2 with rfl | hc3
        · decide
        · exact (hT c hc3).1
    have hsplit : splitNL ((save_playlist_to_file (i :: rest)).data) =
        ('#' :: ' ' :: i.title.data) :: i.link.data ::
          splitNL ((save_playlist_to_file rest).data) := by
      rw [hdata, splitNL_append_newline _ _ hcnl,
        splitNL_append_newline _ _ (fun c hc => (hLnl c hc).1)]
    have hstep1 : loadStep (acc, none) ('#' :: ' ' :: i.title.data) =
        (acc, some i.title.data) := rfl
    have hstep2 : loadStep (acc, some i.title.data) i.link.data =
        (acc ++ [i], none) := by
      obtain ⟨r4, hlink⟩ := startsWith_http_shape i.link.data hLhttp
      rw [hlink]
      have c1 : startsWithL ('#' :: ' ' :: [])
          ('h' :: 't' :: 't' :: 'p' :: r4) = false := rfl
      have c2 : startsWithL ('h' :: 't' :: 't' :: 'p' :: [])
          ('h' :: 't' :: 't' :: 'p' :: r4) = true := rfl
      simp only [loadStep, c1, c2, Bool.false_eq_true, if_false, if_true]
      rw [if_neg hTne, ← hlink]
    rw [hsplit, List.map_cons, List.map_cons,
      stripL_comment _ hTne hTtrail, stripL_link _ hLhttp hLtrail]
    rw [show (('#' :: ' ' :: i.title.data) :: i.link.data ::
        ((splitNL ((save_playlist_to_file rest).data)).map stripL)).filter
          (fun l => l ≠ []) =
        ('#' :: ' ' :: i.title.data) :: i.link.data ::
        (((splitNL ((save_playlist_to_file rest).data)).map stripL).filter
          (fun l => l ≠ [])) from by
      obtain ⟨r4, hlink⟩ := startsWith_http_shape i.link.data hLhttp
      rw [hlink]
      simp [List.filter_cons]]
    rw [List.foldl_cons, List.foldl_cons, hstep1, hstep2,
      ih (fun x hx => h x (List.mem_cons_of_mem i hx)) (acc ++ [i])]
    simp

/-- Claim C5 (amended): the parse of the serialization returns the
playlist unchanged for items whose titles are nonempty, free of newlines
and carriage returns, and free of trailing whitespace, and whose links
start with http and carry no newline, carriage return, or trailing
whitespace.  The claim as stated quantifies over all newline free titles
and fails, for example, on an empty title. -/
theorem playlist_roundtrip (pl : List Item) (h : ∀ i ∈ pl, goodItem i) :
    load_playlist_from_file (save_playlist_to_file pl) = pl := by
  have := load_save_aux pl h []
  simpa [load_playlist_from_file] using this

/-- Claim C5 counterexample: a single item with an empty title and link
http://a serializes to a comment line that strips to a bare hash mark and
is ignored, so the parse returns the link as its own title and the round
trip fails. -/
theorem playlist_roundtrip_counterexample :
    load_playlist_from_file (save_playlist_to_file
      [⟨"http://a", ""⟩]) ≠ [⟨"http://a", ""⟩] := by
  decide

/-- Witness for the amended round trip claim on a concrete two item
playlist. -/
theorem playlist_roundtrip_witness :
    load_playlist_from_file (save_playlist_to_file
      [⟨"http://a", "Song A"⟩, ⟨"https://b", "B side"⟩]) =
      [⟨"http://a", "Song A"⟩, ⟨"https://b", "B side"⟩] := by
  apply playlist_roundtrip
  intro i hi
  rcases List.mem_cons.mp hi with rfl | hi2
  · decide
  · rcases List.mem_cons.mp hi2 with rfl | hi3
    · decide
    · exact absurd hi3 (List.not_mem_nil i)

end UTube
